import Mathlib

/-
Verification development for a minimal HTTP/1.x server
(source files: request.py and server.py).

Python text values are embedded as lists of characters (`Str`).  A TCP
connection is embedded as the list of chunks successively returned by
`recv`: the list exhausted (or an empty chunk) stands for end-of-stream.
Each Python string primitive used by the source is given a faithful
executable counterpart (restricted to ASCII text, which is all the
protocol machinery touches).
-/

abbrev Str := List Char

/-- First occurrence split at the two-character CRLF terminator:
`buff.index("\r\n")` followed by the slicing `buff[:i], buff[i+2:]`.
Returns `none` when the terminator is absent (where `str.index`
would raise `ValueError`). -/
def splitCRLF : Str → Option (Str × Str)
  | [] => none
  | '\r' :: '\n' :: rest => some ([], rest)
  | c :: rest => (splitCRLF rest).map (fun p => (c :: p.1, p.2))

/-- Python `s.split(sep)` for a one-character separator: keeps empty
fields, and the split of the empty string is `[""]`. -/
def pySplitChar (sep : Char) : Str → List Str
  | [] => [[]]
  | c :: rest =>
    match pySplitChar sep rest with
    | [] => [[]]
    | h :: t => if c == sep then [] :: h :: t else (c :: h) :: t

/-- Python `s.partition(sep)` for a one-character separator: splits at
the first occurrence, or returns `(s, "", "")` when absent.  This
operation never fails. -/
def pyPartition (sep : Char) : Str → Str × Str × Str
  | [] => ([], [], [])
  | c :: rest =>
    if c == sep then ([], [c], rest)
    else
      let p := pyPartition sep rest
      (c :: p.1, p.2.1, p.2.2)

/-- Python `s.startswith(pre)` (first argument is `s`). -/
def pyStartswith : Str → Str → Bool
  | _, [] => true
  | [], _ :: _ => false
  | c :: cs, p :: ps => c == p && pyStartswith cs ps

/-- Python `sub in s` substring containment. -/
def containsSub (sub : Str) : Str → Bool
  | [] => sub == []
  | c :: rest => pyStartswith (c :: rest) sub || containsSub sub rest

/-- The ASCII characters Python `str.strip()` removes by default. -/
def isPySpace (c : Char) : Bool :=
  c == ' ' || c == '\t' || c == '\n' || c == '\r' ||
  c == Char.ofNat 11 || c == Char.ofNat 12

/-- Python `s.lstrip()` restricted to ASCII whitespace. -/
def pyLstrip (s : Str) : Str := s.dropWhile isPySpace

/-- Python `s.strip()` restricted to ASCII whitespace. -/
def pyStrip (s : Str) : Str :=
  ((s.dropWhile isPySpace).reverse.dropWhile isPySpace).reverse

/-- Python `s.lstrip(set)` for a one-character strip set. -/
def pyLstripChar (c : Char) (s : Str) : Str := s.dropWhile (· == c)

/-- Python `s.upper()` on ASCII text. -/
def pyUpper (s : Str) : Str := s.map Char.toUpper

/-- Python `s.lower()` on ASCII text. -/
def pyLower (s : Str) : Str := s.map Char.toLower

/-- Value of a non-empty all-digit string, `none` otherwise. -/
def digitsVal (ds : Str) : Option Nat :=
  if ds = [] || !(ds.all Char.isDigit) then none
  else some (ds.foldl (fun n c => n * 10 + (c.toNat - Char.toNat '0')) 0)

/-- Python `int(s)` on ASCII decimal strings: surrounding whitespace is
ignored, one optional sign, then digits; `none` models the `ValueError`
on anything else (underscore digit grouping is not modelled). -/
def pyInt (s : Str) : Option Int :=
  match pyStrip s with
  | '-' :: ds => (digitsVal ds).map (fun n => -(n : Int))
  | '+' :: ds => (digitsVal ds).map (fun n => (n : Int))
  | ds => (digitsVal ds).map (fun n => (n : Int))

/-- Python slice `s[:n]`, including the negative-index convention. -/
def pySliceTo (s : Str) (n : Int) : Str :=
  if 0 ≤ n then s.take n.toNat else s.take (s.length - (-n).toNat)

/-- Python slice `s[n:]`, including the negative-index convention. -/
def pySliceFrom (s : Str) (n : Int) : Str :=
  if 0 ≤ n then s.drop n.toNat else s.drop (s.length - (-n).toNat)

/-- `os.path.join(a, b)` for POSIX paths, two arguments. -/
def pyJoin (a b : Str) : Str :=
  if pyStartswith b ['/'] then b
  else if a = [] || a.getLast? = some '/' then a ++ b
  else a ++ '/' :: b

/-- Joining path components with a single slash. -/
def intercalateSlash : List Str → Str
  | [] => []
  | [s] => s
  | s :: t :: ss => s ++ '/' :: intercalateSlash (t :: ss)

/-- `os.path.normpath` for POSIX paths, following CPython: collapse
empty and `.` components, resolve `..` against preceding components,
preserve one or two leading slashes. -/
def normpath (path : Str) : Str :=
  if path = [] then ['.']
  else
    let initialSlashes : Nat :=
      if pyStartswith path ['/'] then
        if pyStartswith path ['/', '/'] && !(pyStartswith path ['/', '/', '/']) then 2 else 1
      else 0
    let comps := pySplitChar '/' path
    let newComps := comps.foldl (fun acc comp =>
      if comp = [] ∨ comp = ['.'] then acc
      else if comp ≠ ['.', '.'] ∨ (initialSlashes = 0 ∧ acc = []) ∨
              acc.getLast? = some ['.', '.'] then acc ++ [comp]
      else if acc ≠ [] then acc.dropLast
      else acc) []
    let res := List.replicate initialSlashes '/' ++ intercalateSlash newComps
    if res = [] then ['.'] else res

example : splitCRLF "ab\r\ncd".toList = some ("ab".toList, "cd".toList) := by decide
example : splitCRLF "abc".toList = none := by decide
example : pySplitChar ' ' "GET / HTTP/1.1".toList
    = ["GET".toList, "/".toList, "HTTP/1.1".toList] := by decide
example : pySplitChar ' ' "GET /".toList = ["GET".toList, "/".toList] := by decide
example : pyPartition ':' "Host: x".toList
    = ("Host".toList, ":".toList, " x".toList) := by decide
example : pyPartition ':' "BadHeader".toList = ("BadHeader".toList, [], []) := by decide
example : pyInt "3".toList = some 3 := by decide
example : pyInt "  -42 ".toList = some (-42) := by decide
example : pyInt "x3".toList = none := by decide
example : normpath "www/../etc/passwd".toList = "etc/passwd".toList := by decide
example : normpath "www/index.html".toList = "www/index.html".toList := by decide
example : normpath "www/".toList = "www".toList := by decide

/-- Modelled from the spec: the Headers collaborator (headers.py is not
part of src/).  A case-insensitive multimap: `add` preserves duplicates
in insertion order (names are normalized to lower case, matching the
spec example where the stored key is the lower-cased name), and `get`
looks a name up case-insensitively, returning the first match. -/
structure Headers where
  pairs : List (Str × Str)
deriving DecidableEq

/-- Modelled from the spec: `add(name, value)` appends, preserving
same-name duplicates in insertion order. -/
def Headers.add (hs : Headers) (name value : Str) : Headers :=
  ⟨hs.pairs ++ [(pyLower name, value)]⟩

/-- Modelled from the spec: case-insensitive lookup of the first value
stored under a name. -/
def Headers.lookup (hs : Headers) (name : Str) : Option Str :=
  (hs.pairs.find? (fun q => q.1 == pyLower name)).map (fun q => q.2)

/-- Modelled from the spec: `get(name, default)` returns the first
match, case-insensitively, or the default. -/
def Headers.get (hs : Headers) (name dflt : Str) : Str :=
  match hs.lookup name with
  | some v => v
  | none => dflt

/-- `BodyReader`: the bounded body reader of request.py.  `buff` is the
internal buffered remainder (`_buff`) and `chunks` the data still to be
returned by `recv` on the underlying socket, in order; an exhausted
list (or an empty chunk) is end-of-stream. -/
structure BodyReader where
  buff : Str
  chunks : List Str
deriving DecidableEq

/-- The `while len(self._buff) < n` loop of `BodyReader.read`: keep
appending `recv` chunks to the buffer until it holds at least `n`
characters or `recv` returns nothing. -/
def fill (n : Int) : Str → List Str → Str × List Str
  | buff, [] => (buff, [])
  | buff, c :: rest =>
    if (buff.length : Int) < n then
      if c = [] then (buff, rest) else fill n (buff ++ c) rest
    else (buff, c :: rest)

/-- `BodyReader.read(n)`: fill the buffer up to `n` characters, return
the slice `buff[:n]` and retain `buff[n:]`. -/
def BodyReader.read (b : BodyReader) (n : Int) : Str × BodyReader :=
  let p := fill n b.buff b.chunks
  (pySliceTo p.1 n, ⟨pySliceFrom p.1 n, p.2⟩)

/-- All characters a `BodyReader` can ever deliver, in order: the
buffered remainder followed by the connection's remaining data. -/
def BodyReader.stream (b : BodyReader) : Str :=
  b.buff ++ b.chunks.flatten

/-- The ways `Request.from_socket` can fail, by message.  The first
three are the `ValueError`s raised explicitly by the parser; the last
is the `ValueError` of `str.index` escaping from `iter_lines` (the
generator guards `IndexError`, which `str.index` does not raise). -/
inductive ParseError where
  | requestLineMissing
  | malformedRequestLine (line : Str)
  | malformedHeaderLine (line : Str)
  | substringNotFound
deriving DecidableEq

/-- How a full run of the `iter_lines` generator ends: `finished` with
the yielded lines, the returned remainder and the chunks never read
from the socket, or `raised` (the uncaught `ValueError` of `str.index`)
after having yielded some lines. -/
inductive LinesOutcome where
  | finished (lines : List Str) (remainder : Str) (rest : List Str)
  | raised (lines : List Str)
deriving DecidableEq

/-- The inner `while True` loop of `iter_lines`, resumed after each
yield: split the buffer at the first CRLF; an empty line returns the
remaining buffer; a missing CRLF raises (the `except IndexError` guard
never matches `ValueError`, so the loop never breaks back to `recv`).
The fuel argument bounds the loop: each iteration consumes at least
two characters of the buffer, so `buff.length` steps suffice, and when
fuel runs out the buffer is empty, which is also a raise. -/
def iterLinesLoop : Nat → Str → List Str → List Str → LinesOutcome
  | 0, _, _, acc => .raised acc.reverse
  | fuel + 1, buff, rest, acc =>
    match splitCRLF buff with
    | none => .raised acc.reverse
    | some (line, buff') =>
      if line = [] then .finished acc.reverse buff' rest
      else iterLinesLoop fuel buff' rest (line :: acc)

/-- The `iter_lines` generator of request.py, run on a connection.
The first `recv` result is taken from the head of the chunk list; an
empty read ends the sequence with an empty remainder.  Because the
inner loop can only return or raise, `recv` is reached exactly once. -/
def iter_lines (chunks : List Str) : LinesOutcome :=
  match chunks with
  | [] => .finished [] [] []
  | c :: rest => if c = [] then .finished [] [] rest else iterLinesLoop c.length c rest []

example : iter_lines ["GET / HTTP/1.1\r\nHost: x\r\n\r\n".toList]
    = .finished ["GET / HTTP/1.1".toList, "Host: x".toList] [] [] := by decide
example : iter_lines ["GET / HTTP/1.1\r\nHo".toList, "st: x\r\n\r\n".toList]
    = .raised ["GET / HTTP/1.1".toList] := by decide
example : iter_lines ["a\r\n\r\ntail".toList, "more".toList]
    = .finished ["a".toList] "tail".toList ["more".toList] := by decide

/-- The header loop of `Request.from_socket`, advancing the paused
generator step by step on its current buffer: an empty line ends the
loop (`StopIteration` carrying the remaining buffer), a missing CRLF is
the uncaught `ValueError` of `str.index`, and every other line is split
at the first colon by `partition` (which never raises, so the
`Malformed header line` branch is unreachable) and added with its value
left-stripped.  Fuel as in `iterLinesLoop`: `buff.length` suffices, and
exhausted fuel means an empty buffer, which is the same raise. -/
def processHeaders : Nat → Str → List Str → Headers → Except ParseError (Headers × Str × List Str)
  | 0, _, _, _ => .error .substringNotFound
  | fuel + 1, buff, rest, hs =>
    match splitCRLF buff with
    | none => .error .substringNotFound
    | some (line, buff') =>
      if line = [] then .ok (hs, buff', rest)
      else
        let p := pyPartition ':' line
        processHeaders fuel buff' rest (hs.add p.1 (pyLstrip p.2.2))

deriving instance DecidableEq for Except

/-- The parsed request record: method (upper-cased), path, headers,
and the body reader seeded with the line reader's leftover buffer. -/
structure Request where
  method : Str
  path : Str
  headers : Headers
  body : BodyReader
deriving DecidableEq

/-- `Request.from_socket` after a request line with exactly three
tokens has been read: parse the header lines, then assemble the
request around a `BodyReader` seeded with the unconsumed remainder. -/
def afterRequestLine (method path buff : Str) (rest : List Str) :
    Except ParseError Request :=
  match processHeaders buff.length buff rest ⟨[]⟩ with
  | .error e => .error e
  | .ok (hs, remainder, rest') =>
    .ok ⟨pyUpper method, path, hs, ⟨remainder, rest'⟩⟩

/-- `Request.from_socket`: read the request line off the connection
(an empty read, an empty connection, or an immediately empty line is
`Request line missing`), split it on single spaces into exactly three
tokens or fail with `Malformed request line`, then parse headers. -/
def Request.from_socket (chunks : List Str) : Except ParseError Request :=
  match chunks with
  | [] => .error .requestLineMissing
  | c :: rest =>
    if c = [] then .error .requestLineMissing
    else
      match splitCRLF c with
      | none => .error .substringNotFound
      | some (line, buff) =>
        if line = [] then .error .requestLineMissing
        else
          match pySplitChar ' ' line with
          | [method, path, _version] => afterRequestLine method path buff rest
          | _ => .error (.malformedRequestLine line)

example : Request.from_socket ["GET /index.html HTTP/1.1\r\nHost: x\r\n\r\n".toList]
    = .ok ⟨"GET".toList, "/index.html".toList,
            ⟨[("host".toList, "x".toList)]⟩, ⟨[], []⟩⟩ := by decide
example : Request.from_socket ["GET /\r\n\r\n".toList]
    = .error (.malformedRequestLine "GET /".toList) := by decide
example : Request.from_socket ["G".toList, "E".toList]
    = .error .substringNotFound := by decide

/-- The externally visible steps a worker takes on one connection.
The `Response` collaborator (response.py is not part of src/) is
reduced to the emission of its status line; reading the body is
recorded with the requested length. -/
inductive WorkerAction where
  | continue100
  | readBody (n : Int)
  | notAllowed405
  | serveFilePath (path : Str)
  | badRequest400
deriving DecidableEq

/-- The body length computed by `handle_client`:
`int(request.headers.get("content-length", "0"))` with the
`ValueError` of `int` caught and replaced by `0`. -/
def contentLengthOf (hs : Headers) : Int :=
  match pyInt (hs.get "content-length".toList "0".toList) with
  | some k => k
  | none => 0

/-- The actions `handle_client` performs after a successful parse and
before the method check: the interim `100 Continue` when the `Expect`
header contains `100-continue`, then the body read when the computed
content length is non-zero (Python integer truthiness). -/
def preActions (req : Request) : List WorkerAction :=
  (if containsSub "100-continue".toList (req.headers.get "expect".toList [])
    then [WorkerAction.continue100] else [])
  ++ (if contentLengthOf req.headers ≠ 0
        then [WorkerAction.readBody (contentLengthOf req.headers)] else [])

/-- `HTTPWorker.handle_client` as the list of actions taken on one
connection: any parse failure is answered with `400 Bad Request`;
otherwise the interim/body actions run, then a method other than `GET`
is answered with `405 Method Not Allowed` and the handler returns,
else `serve_file` is invoked with the request path. -/
def handle_client (chunks : List Str) : List WorkerAction :=
  match Request.from_socket chunks with
  | .error _ => [WorkerAction.badRequest400]
  | .ok req =>
    preActions req ++
      (if req.method ≠ "GET".toList then [WorkerAction.notAllowed405]
       else [WorkerAction.serveFilePath req.path])

/-- The arguments of the `readBody` actions in a trace, in order. -/
def readBodyArgs (acts : List WorkerAction) : List Int :=
  acts.filterMap (fun a =>
    match a with
    | WorkerAction.readBody n => some n
    | _ => none)

example : handle_client ["GET / HTTP/1.1\r\nContent-Length: 3\r\n\r\nabc".toList]
    = [WorkerAction.readBody 3, WorkerAction.serveFilePath "/".toList] := by decide
example : handle_client ["POST / HTTP/1.1\r\n\r\n".toList]
    = [WorkerAction.notAllowed405] := by decide
example : handle_client ["PUT / HTTP/1.1\r\nExpect: 100-continue\r\nContent-Length: 2\r\n\r\nhi".toList]
    = [WorkerAction.continue100, WorkerAction.readBody 2, WorkerAction.notAllowed405] := by decide
example : handle_client ["nonsense".toList] = [WorkerAction.badRequest400] := by decide

/-- What `serve_file` decides before touching the filesystem: either
send `404 Not Found` straight away, or attempt `open` on the resolved
path (whose outcome, `200 OK` or a `FileNotFoundError` 404, depends on
the filesystem and is outside this model). -/
inductive FileAction where
  | notFound404
  | openAttempt (abspath : Str)
deriving DecidableEq

/-- The server's document root. -/
def SERVER_ROOT : Str := "www".toList

/-- The path `serve_file` resolves: `/` is rewritten to `/index.html`,
leading slashes are stripped, the result is joined under `SERVER_ROOT`
and normalized. -/
def abspathOf (path : Str) : Str :=
  let p := if path = "/".toList then "/index.html".toList else path
  normpath (pyJoin SERVER_ROOT (pyLstripChar '/' p))

/-- `serve_file` up to its filesystem access: when the resolved path
does not start with `SERVER_ROOT`, send `404 Not Found` and return;
otherwise attempt to open the resolved path. -/
def serve_file (path : Str) : FileAction :=
  let abspath := abspathOf path
  if pyStartswith abspath SERVER_ROOT then .openAttempt abspath
  else .notFound404

example : serve_file "/".toList = .openAttempt "www/index.html".toList := by decide
example : serve_file "/../secret".toList = .notFound404 := by decide
example : serve_file "/a/../b.txt".toList = .openAttempt "www/b.txt".toList := by decide

/-- A delivery of the same bytes one character per `recv` chunk. -/
def oneBytePer (s : Str) : List Str := s.map (fun c => [c])

/-- C1: the claim fails on the code.  Delivered in one chunk, the
request `GET / HTTP/1.1\r\nHost: x\r\n\r\n` parses to the expected
request; delivered one byte at a time, the very first one-byte buffer
contains no CRLF, `str.index` raises `ValueError` (which the
`except IndexError` guard in `iter_lines` does not catch), and
`Request.from_socket` fails instead of reading more data. -/
theorem from_socket_fragmentation_bug :
    Request.from_socket (oneBytePer "GET / HTTP/1.1\r\nHost: x\r\n\r\n".toList)
      = .error .substringNotFound
    ∧ Request.from_socket ["GET / HTTP/1.1\r\nHost: x\r\n\r\n".toList]
      = .ok ⟨"GET".toList, "/".toList, ⟨[("host".toList, "x".toList)]⟩, ⟨[], []⟩⟩ := by
  exact ⟨by decide, by decide⟩

/-- C2: the claim fails on the code.  The header section containing the
colon-less line `BadHeader` parses successfully: `str.partition` never
raises the `ValueError` the parser guards against, so the line is
silently stored as the header `badheader` with an empty value instead
of failing with a malformed-header-line error. -/
theorem from_socket_colonless_header_accepted :
    Request.from_socket ["GET / HTTP/1.1\r\nBadHeader\r\n\r\n".toList]
      = .ok ⟨"GET".toList, "/".toList, ⟨[("badheader".toList, [])]⟩, ⟨[], []⟩⟩ := by
  decide

/-- C4: parsing `GET /index.html HTTP/1.1\r\nHost: x\r\n\r\n` succeeds
with method `GET`, path `/index.html`, exactly the header
`host -> x` (leading whitespace of the value stripped), and a body
reader whose initial buffered remainder is empty. -/
theorem from_socket_index_example :
    Request.from_socket ["GET /index.html HTTP/1.1\r\nHost: x\r\n\r\n".toList]
      = .ok ⟨"GET".toList, "/index.html".toList,
              ⟨[("host".toList, "x".toList)]⟩, ⟨[], []⟩⟩ := by
  decide

/-- C6: the claim fails on the code.  On the delivery
`["GET / HTTP/1.1\r\nHo", "st: x\r\n\r\n"]` the line sequence does not
terminate by empty line or end-of-stream: after yielding the request
line, the leftover buffer `Ho` has no CRLF, `str.index` raises an
uncaught `ValueError`, and the second chunk is never read — a third
termination mode the claim excludes. -/
theorem iter_lines_raises_on_fragment :
    iter_lines ["GET / HTTP/1.1\r\nHo".toList, "st: x\r\n\r\n".toList]
      = .raised ["GET / HTTP/1.1".toList] := by
  decide

/-- The filling loop preserves the overall character stream, and stops
only with a buffer of at least `n` characters or an exhausted
connection (given that every delivered chunk is non-empty, as `recv`
returns non-empty data until end-of-stream). -/
theorem fill_spec (n : Int) :
    ∀ (chunks : List Str) (buff : Str), (∀ c ∈ chunks, c ≠ []) →
      (fill n buff chunks).1 ++ (fill n buff chunks).2.flatten = buff ++ chunks.flatten
      ∧ (n ≤ ((fill n buff chunks).1.length : Int) ∨ (fill n buff chunks).2 = [])
  | [], buff, _ => by
    by_cases hlt : (buff.length : Int) < n
    · simp [fill]
    · exact ⟨by simp [fill], Or.inl (by simpa [fill] using not_lt.mp hlt)⟩
  | c :: rest, buff, h => by
    by_cases hlt : (buff.length : Int) < n
    · have hc : c ≠ [] := h c (by simp)
      have ih := fill_spec n rest (buff ++ c) (fun d hd => h d (List.mem_cons_of_mem _ hd))
      refine ⟨?_, ?_⟩
      · simpa [fill, hlt, hc, List.append_assoc] using ih.1
      · simpa [fill, hlt, hc] using ih.2
    · refine ⟨by simp [fill, hlt], Or.inl ?_⟩
      simpa [fill, hlt] using not_lt.mp hlt

/-- When the buffer is already long enough the loop body never runs and
the connection is untouched. -/
theorem fill_of_ge (n : Int) (buff : Str) (chunks : List Str)
    (h : ¬ (buff.length : Int) < n) : fill n buff chunks = (buff, chunks) := by
  cases chunks <;> simp [fill, h]

/-- C10: whenever the internal buffer already holds at least `n`
characters (`n ≥ 0`), `read(n)` returns the first `n` buffered
characters, keeps the rest of the buffer, and leaves the connection's
chunk list untouched (no `recv` is performed). -/
theorem read_from_buffer (b : BodyReader) (n : Int)
    (h0 : 0 ≤ n) (hb : n ≤ (b.buff.length : Int)) :
    b.read n = (b.buff.take n.toNat, ⟨b.buff.drop n.toNat, b.chunks⟩) := by
  have hfill := fill_of_ge n b.buff b.chunks (not_lt.mpr hb)
  simp [BodyReader.read, hfill, pySliceTo, pySliceFrom, h0]

/-- C10 witness: with buffer `abc` and pending connection data `d`,
`read(2)` returns `ab`, keeps `c` buffered, and leaves `d` unread. -/
theorem read_from_buffer_witness :
    BodyReader.read ⟨"abc".toList, ["d".toList]⟩ 2
      = (("abc".toList).take ((2 : Int).toNat),
         ⟨("abc".toList).drop ((2 : Int).toNat), ["d".toList]⟩) :=
  read_from_buffer ⟨"abc".toList, ["d".toList]⟩ 2 (by decide) (by decide)

/-- C3: for a body reader over a connection whose chunks are non-empty
(`recv` returns non-empty data until end-of-stream) and `n ≥ 0`,
`read(n)` returns the first `min(n, total available)` characters of the
stream (buffered remainder first), the surplus stays available for
subsequent stateful calls (the post-state's stream is the rest of the
pre-state's stream), and the returned length is exactly
`min(n, total available before end-of-stream)`. -/
theorem read_min (b : BodyReader) (n : Int)
    (hn : 0 ≤ n) (hc : ∀ c ∈ b.chunks, c ≠ []) :
    (b.read n).1 = b.stream.take n.toNat
    ∧ (b.read n).2.stream = b.stream.drop n.toNat
    ∧ (b.read n).1.length = min n.toNat b.stream.length := by
  obtain ⟨heq, hdisj⟩ := fill_spec n b.chunks b.buff hc
  have hread : b.read n
      = (pySliceTo (fill n b.buff b.chunks).1 n,
         ⟨pySliceFrom (fill n b.buff b.chunks).1 n, (fill n b.buff b.chunks).2⟩) := rfl
  have hstream : b.stream
      = (fill n b.buff b.chunks).1 ++ (fill n b.buff b.chunks).2.flatten := by
    rw [BodyReader.stream, ← heq]
  have htake : pySliceTo (fill n b.buff b.chunks).1 n
      = ((fill n b.buff b.chunks).1).take n.toNat := by
    simp [pySliceTo, hn]
  have hdrop : pySliceFrom (fill n b.buff b.chunks).1 n
      = ((fill n b.buff b.chunks).1).drop n.toNat := by
    simp [pySliceFrom, hn]
  have hmain : (b.read n).1 = b.stream.take n.toNat
      ∧ (b.read n).2.stream = b.stream.drop n.toNat := by
    rcases hdisj with hlen | hnil
    · have hle : n.toNat ≤ ((fill n b.buff b.chunks).1).length := Int.toNat_le.mpr hlen
      constructor
      · rw [hread, hstream, htake, List.take_append_of_le_length hle]
      · rw [hread, hstream]
        simp only [BodyReader.stream]
        rw [hdrop, List.drop_append_of_le_length hle]
    · constructor
      · rw [hread, hstream, htake, hnil]
        simp
      · rw [hread, hstream]
        simp only [BodyReader.stream]
        rw [hdrop, hnil]
        simp
  refine ⟨hmain.1, hmain.2, ?_⟩
  rw [hmain.1, List.length_take]

/-- C3 witness: with buffered remainder `ab` and connection data
`cdef`, `read(5)` returns `abcde` (the first `min(5, 6)` characters of
the stream) leaving `f` buffered, and a subsequent `read(1)` returns
`f`. -/
theorem read_min_witness :
    (BodyReader.read ⟨"ab".toList, ["cdef".toList]⟩ 5).1
        = (BodyReader.stream ⟨"ab".toList, ["cdef".toList]⟩).take ((5 : Int).toNat)
    ∧ BodyReader.read ⟨"ab".toList, ["cdef".toList]⟩ 5
        = ("abcde".toList, ⟨"f".toList, []⟩)
    ∧ (BodyReader.read ⟨"f".toList, []⟩ 1).1 = "f".toList :=
  ⟨(read_min ⟨"ab".toList, ["cdef".toList]⟩ 5 (by decide) (by decide)).1,
   by decide, by decide⟩

/-- The header loop can only fail with the uncaught `str.index` error:
the malformed-request-line error is never produced past the request
line. -/
theorem processHeaders_no_request_line_error :
    ∀ (fuel : Nat) (buff : Str) (rest : List Str) (hs : Headers) (l : Str),
      processHeaders fuel buff rest hs ≠ .error (.malformedRequestLine l)
  | 0, _, _, _, _ => by simp [processHeaders]
  | fuel + 1, buff, rest, hs, l => by
    cases hsp : splitCRLF buff with
    | none => simp [processHeaders, hsp]
    | some p =>
      by_cases hl : p.1 = []
      · simp [processHeaders, hsp, hl]
      · simpa [processHeaders, hsp, hl] using
          processHeaders_no_request_line_error fuel p.2 rest
            (hs.add (pyPartition ':' p.1).1 (pyLstrip (pyPartition ':' p.1).2.2)) l

/-- Once the request line has split into three tokens, no
malformed-request-line error can arise any more. -/
theorem afterRequestLine_no_request_line_error (m p buff : Str) (rest : List Str)
    (l : Str) : afterRequestLine m p buff rest ≠ .error (.malformedRequestLine l) := by
  unfold afterRequestLine
  cases hph : processHeaders buff.length buff rest ⟨[]⟩ with
  | error e =>
    intro hcontra
    injection hcontra with he
    exact processHeaders_no_request_line_error buff.length buff rest ⟨[]⟩ l
      (hph.trans (by rw [he]))
  | ok v => simp

/-- C5: on a connection whose first buffered line is the (non-empty)
request line, `Request.from_socket` splits it on single spaces and the
request-line stage succeeds exactly when that yields three tokens:
with any other token count it fails with a malformed-request-line error
carrying the offending line, and with three tokens it proceeds to the
header phase (from which no malformed-request-line error can arise). -/
theorem from_socket_request_line_split (c : Str) (rest : List Str) (line buff : Str)
    (hc : c ≠ []) (hsplit : splitCRLF c = some (line, buff)) (hline : line ≠ []) :
    ((pySplitChar ' ' line).length ≠ 3 →
      Request.from_socket (c :: rest) = .error (.malformedRequestLine line))
    ∧ (∀ m p v, pySplitChar ' ' line = [m, p, v] →
      Request.from_socket (c :: rest) = afterRequestLine m p buff rest)
    ∧ (∀ l, Request.from_socket (c :: rest) = .error (.malformedRequestLine l) →
      (pySplitChar ' ' line).length ≠ 3) := by
  have hfs : Request.from_socket (c :: rest)
      = (match pySplitChar ' ' line with
         | [method, path, _version] => afterRequestLine method path buff rest
         | _ => .error (.malformedRequestLine line)) := by
    simp [Request.from_socket, hc, hsplit, hline]
  refine ⟨?_, ?_, ?_⟩
  · intro hne
    rw [hfs]
    rcases hsp : pySplitChar ' ' line with _ | ⟨a, _ | ⟨b, _ | ⟨d, _ | ⟨e, f⟩⟩⟩⟩ <;>
      simp_all
  · intro m p v hmv
    rw [hfs, hmv]
  · intro l hl hlen
    obtain ⟨m, p, v, hmv⟩ := List.length_eq_three.mp hlen
    rw [hfs, hmv] at hl
    exact afterRequestLine_no_request_line_error m p buff rest l hl

/-- C5 witness: the request line of `GET /\r\n\r\n` has two tokens, so
parsing fails with a malformed-request-line error naming `GET /`. -/
theorem from_socket_request_line_split_witness :
    Request.from_socket ["GET /\r\n\r\n".toList]
      = .error (.malformedRequestLine "GET /".toList) :=
  (from_socket_request_line_split "GET /\r\n\r\n".toList [] "GET /".toList
    "\r\n".toList (by decide) (by decide) (by decide)).1 (by decide)

/-- Splitting `readBodyArgs` over concatenated traces. -/
theorem readBodyArgs_append (a b : List WorkerAction) :
    readBodyArgs (a ++ b) = readBodyArgs a ++ readBodyArgs b := by
  simp [readBodyArgs]

/-- C7: for every successfully parsed request, the worker's body length
is the integer of the `Content-Length` header; it is `0` when the
header is absent (the lookup falls back to the default `"0"`) and when
its value does not parse as an integer (the `ValueError` of `int` is
caught).  The trace contains a body read exactly when that length is
non-zero, and then exactly one read of exactly that length; with length
zero the body reader is never invoked. -/
theorem handle_client_content_length (chunks : List Str) (req : Request)
    (h : Request.from_socket chunks = .ok req) :
    readBodyArgs (handle_client chunks)
      = (if contentLengthOf req.headers = 0 then []
         else [contentLengthOf req.headers])
    ∧ (req.headers.lookup "content-length".toList = none →
        contentLengthOf req.headers = 0)
    ∧ (∀ v, req.headers.lookup "content-length".toList = some v →
        pyInt v = none → contentLengthOf req.headers = 0) := by
  refine ⟨?_, ?_, ?_⟩
  · have heq : handle_client chunks
        = preActions req ++
          (if req.method ≠ "GET".toList then [WorkerAction.notAllowed405]
           else [WorkerAction.serveFilePath req.path]) := by
      simp only [handle_client, h]
    rw [heq, readBodyArgs_append]
    have htail : readBodyArgs
        (if req.method ≠ "GET".toList then [WorkerAction.notAllowed405]
         else [WorkerAction.serveFilePath req.path]) = [] := by
      split <;> simp [readBodyArgs]
    rw [htail, List.append_nil]
    simp only [preActions, readBodyArgs_append]
    have hexpect : readBodyArgs
        (if containsSub "100-continue".toList (req.headers.get "expect".toList [])
          then [WorkerAction.continue100] else []) = [] := by
      split <;> simp [readBodyArgs]
    have hbody : readBodyArgs
        (if contentLengthOf req.headers ≠ 0
          then [WorkerAction.readBody (contentLengthOf req.headers)] else [])
        = (if contentLengthOf req.headers = 0 then []
           else [contentLengthOf req.headers]) := by
      by_cases hcl : contentLengthOf req.headers = 0 <;> simp [readBodyArgs, hcl]
    rw [hexpect, hbody, List.nil_append]
  · intro hnone
    simp only [contentLengthOf, Headers.get, hnone]
    decide
  · intro v hv hnoint
    simp only [contentLengthOf, Headers.get, hv, hnoint]

/-- C7 witness: a parsed request carrying `Content-Length: 3` makes the
worker read exactly three characters from the body reader. -/
theorem handle_client_content_length_witness :
    readBodyArgs (handle_client
        ["GET / HTTP/1.1\r\nContent-Length: 3\r\n\r\nabc".toList]) = [(3 : Int)] := by
  have h := (handle_client_content_length
    ["GET / HTTP/1.1\r\nContent-Length: 3\r\n\r\nabc".toList]
    ⟨"GET".toList, "/".toList, ⟨[("content-length".toList, "3".toList)]⟩,
      ⟨"abc".toList, []⟩⟩ (by decide)).1
  rw [h]
  decide

/-- A `serve_file` invocation never occurs among the interim and
body-reading actions. -/
theorem serveFilePath_not_mem_preActions (req : Request) (p : Str) :
    WorkerAction.serveFilePath p ∉ preActions req := by
  intro hp
  simp only [preActions] at hp
  rcases List.mem_append.mp hp with h1 | h1 <;> (split at h1 <;> simp_all)

/-- C8: for every successfully parsed request whose (upper-cased)
method differs from `GET`, the worker's trace never invokes the
file-serving handler and ends with the `405 Method Not Allowed`
response; conversely the file-serving handler is only ever invoked
when the method is `GET`. -/
theorem handle_client_method_gate (chunks : List Str) (req : Request)
    (h : Request.from_socket chunks = .ok req) :
    (req.method ≠ "GET".toList →
      (∀ p, WorkerAction.serveFilePath p ∉ handle_client chunks)
      ∧ handle_client chunks = preActions req ++ [WorkerAction.notAllowed405])
    ∧ (∀ p, WorkerAction.serveFilePath p ∈ handle_client chunks →
        req.method = "GET".toList) := by
  constructor
  · intro hm
    have heq : handle_client chunks = preActions req ++ [WorkerAction.notAllowed405] := by
      simp only [handle_client, h]
      rw [if_pos hm]
    refine ⟨?_, heq⟩
    intro p hp
    rw [heq] at hp
    rcases List.mem_append.mp hp with h1 | h1
    · exact serveFilePath_not_mem_preActions req p h1
    · simp at h1
  · intro p hp
    by_cases hm : req.method = "GET".toList
    · exact hm
    · exfalso
      have heq : handle_client chunks = preActions req ++ [WorkerAction.notAllowed405] := by
        simp only [handle_client, h]
        rw [if_pos hm]
      rw [heq] at hp
      rcases List.mem_append.mp hp with h1 | h1
      · exact serveFilePath_not_mem_preActions req p h1
      · simp at h1

/-- C8 witness: a parsed `POST` request is answered with `405` as the
final action and `serve_file` is never invoked. -/
theorem handle_client_method_gate_witness :
    WorkerAction.serveFilePath "/".toList ∉ handle_client ["POST / HTTP/1.1\r\n\r\n".toList]
    ∧ handle_client ["POST / HTTP/1.1\r\n\r\n".toList]
        = preActions ⟨"POST".toList, "/".toList, ⟨[]⟩, ⟨[], []⟩⟩
          ++ [WorkerAction.notAllowed405] := by
  have h := (handle_client_method_gate ["POST / HTTP/1.1\r\n\r\n".toList]
    ⟨"POST".toList, "/".toList, ⟨[]⟩, ⟨[], []⟩⟩ (by decide)).1 (by decide)
  exact ⟨h.1 "/".toList, h.2⟩

/-- C9: `serve_file` answers `404 Not Found` without touching the
filesystem exactly when the normalized join of the server root with the
slash-stripped request path does not string-start with the server root;
any open attempt is on that normalized path, and only happens when it
does string-start with the root. -/
theorem serve_file_root_guard (path : Str) :
    (serve_file path = .notFound404
      ↔ pyStartswith (abspathOf path) SERVER_ROOT = false)
    ∧ (∀ p, serve_file path = .openAttempt p →
        p = abspathOf path ∧ pyStartswith (abspathOf path) SERVER_ROOT = true) := by
  constructor
  · by_cases hsw : pyStartswith (abspathOf path) SERVER_ROOT = true <;>
      simp [serve_file, hsw]
  · intro p hp
    by_cases hsw : pyStartswith (abspathOf path) SERVER_ROOT = true
    · simp [serve_file, hsw] at hp
      exact ⟨hp.symm, hsw⟩
    · simp [serve_file, hsw] at hp

/-- C9 witness: for the traversal path `/../secret` the normalized join
is `etc`-style `secret`, which does not start with `www`, so the file
is never opened and `404` is sent. -/
theorem serve_file_root_guard_witness :
    serve_file "/../secret".toList = FileAction.notFound404 :=
  (serve_file_root_guard "/../secret".toList).1.mpr (by decide)
